import Mathlib

/-!
Shallow embedding of the dmcp local installation state engine
(index/manifest data model, two-tier scope-precedence discovery and the
privilege-aware mutation protocol) together with theorems checking the
specification claims against it.

The definitions mirror the Rust sources in `src/`:
`models.rs`, `discovery.rs`, `install.rs`, `config.rs`, `sources.rs`,
`connect.rs`.  File-system reads and writes are made explicit through a
small world/state model; external processes (the elevated copy) are
modelled by an oracle describing their exit status.
-/

namespace Dmcp

/-- JSON values as produced and consumed by `serde_json` (`serde_json::Value`).
Objects are modelled as association lists of key/value pairs. -/
inductive Json where
  | null : Json
  | bool (b : Bool) : Json
  | num (n : Int) : Json
  | str (s : String) : Json
  | arr (xs : List Json) : Json
  | obj (kvs : List (String × Json)) : Json
deriving Repr, Inhabited

/-- First-match lookup of a key in an object's association list
(mirrors `serde_json::Map::get`). -/
def objLookup : List (String × Json) → String → Option Json
  | [], _ => none
  | (k, v) :: rest, key => if k = key then some v else objLookup rest key

/-- `Value::get(key)`: key lookup that yields `none` on non-objects. -/
def Json.get : Json → String → Option Json
  | .obj kvs, k => objLookup kvs k
  | _, _ => none

/-- Upsert a key in an object's association list, keeping the position of an
existing key (mirrors map insertion as observed through lookups). -/
def objInsert : List (String × Json) → String → Json → List (String × Json)
  | [], key, v => [(key, v)]
  | (k, w) :: rest, key, v =>
    if k = key then (k, v) :: rest else (k, w) :: objInsert rest key v

/-- Remove a key from an object's association list
(mirrors `serde_json::Map::remove` as observed through lookups). -/
def objRemove : List (String × Json) → String → List (String × Json)
  | [], _ => []
  | (k, w) :: rest, key =>
    if k = key then rest else (k, w) :: objRemove rest key

/-- The state of one on-disk file: missing, present but not valid JSON,
or present with the given parsed JSON content. -/
inductive FileState where
  | absent : FileState
  | corrupt : FileState
  | file (j : Json) : FileState
deriving Repr, Inhabited

/-- Scope of an installation (`discovery::Scope`). -/
inductive Scope where
  | user : Scope
  | system : Scope
deriving Repr, DecidableEq, Inhabited

/-- Transport descriptor (`models::Transport`), tagged by `type`. -/
inductive Transport where
  | stdio (command : String) (args : Option (List String))
      (description : Option String) : Transport
  | sse (url : String) (description : Option String) : Transport
  | webSocket (wsUrl : String) (description : Option String) : Transport
deriving Repr, Inhabited

/-- Typed manifest record (`models::Manifest`). -/
structure Manifest where
  id : Option String
  name : Option String
  summary : Option String
  version : Option String
  description : Option String
  author : Option String
  homepage : Option String
  transports : Option (List Transport)
  config : List (String × Json)
  install_dir : Option String
  categories : List String
  capabilities : List String
  permissions : List String
  tools : List Json
deriving Repr, Inhabited

/-- serde semantics of an `Option<String>` field: missing or `null` is `none`,
a string is `some`, any other shape is a parse error. -/
def optStrField (j : Json) (k : String) : Option (Option String) :=
  match j.get k with
  | none => some none
  | some .null => some none
  | some (.str s) => some (some s)
  | some _ => none

/-- serde semantics of an `Option<Vec<String>>` field. -/
def optStrListField (j : Json) (k : String) : Option (Option (List String)) :=
  match j.get k with
  | none => some none
  | some .null => some none
  | some (.arr xs) =>
    (xs.mapM fun x => match x with | Json.str s => some s | _ => none).map some
  | some _ => none

/-- serde semantics of a `#[serde(default)] Vec<String>` field. -/
def strListFieldD (j : Json) (k : String) : Option (List String) :=
  match j.get k with
  | none => some []
  | some (.arr xs) =>
    xs.mapM fun x => match x with | Json.str s => some s | _ => none
  | some _ => none

/-- serde semantics of the `#[serde(default)] Vec<Value>` `tools` field. -/
def jsonListFieldD (j : Json) (k : String) : Option (List Json) :=
  match j.get k with
  | none => some []
  | some (.arr xs) => some xs
  | some _ => none

/-- serde semantics of the `#[serde(default)] HashMap<String, Value>`
`config` field. -/
def configFieldD (j : Json) : Option (List (String × Json)) :=
  match j.get "config" with
  | none => some []
  | some (.obj kvs) => some kvs
  | some _ => none

/-- Parse one transport descriptor (internally tagged by `type`). -/
def parseTransport (j : Json) : Option Transport :=
  match j.get "type" with
  | some (.str "stdio") =>
    match j.get "command" with
    | some (.str c) => do
      let args ← optStrListField j "args"
      let d ← optStrField j "description"
      some (.stdio c args d)
    | _ => none
  | some (.str "sse") =>
    match j.get "url" with
    | some (.str u) => do
      let d ← optStrField j "description"
      some (.sse u d)
    | _ => none
  | some (.str "websocket") =>
    match j.get "wsUrl" with
    | some (.str u) => do
      let d ← optStrField j "description"
      some (.webSocket u d)
    | _ => none
  | _ => none

/-- serde semantics of the `Option<Vec<Transport>>` field. -/
def transportsField (j : Json) : Option (Option (List Transport)) :=
  match j.get "transports" with
  | none => some none
  | some .null => some none
  | some (.arr xs) => (xs.mapM parseTransport).map some
  | some _ => none

/-- Shape check of a manifest object: every field deserializes. -/
def manifestShapeOk (j : Json) : Bool :=
  (optStrField j "id").isSome && (optStrField j "name").isSome &&
  (optStrField j "summary").isSome && (optStrField j "version").isSome &&
  (optStrField j "description").isSome && (optStrField j "author").isSome &&
  (optStrField j "homepage").isSome && (transportsField j).isSome &&
  (configFieldD j).isSome && (optStrField j "installDir").isSome &&
  (strListFieldD j "categories").isSome &&
  (strListFieldD j "capabilities").isSome &&
  (strListFieldD j "permissions").isSome && (jsonListFieldD j "tools").isSome

/-- Typed deserialization of a manifest (`serde_json::from_str::<Manifest>`
on already-wellformed JSON): the root must be an object and every field
must deserialize, yielding the record of field values. -/
def parseManifest (j : Json) : Option Manifest :=
  match j with
  | .obj _ =>
    if manifestShapeOk j then
      some {
        id := (optStrField j "id").getD none
        name := (optStrField j "name").getD none
        summary := (optStrField j "summary").getD none
        version := (optStrField j "version").getD none
        description := (optStrField j "description").getD none
        author := (optStrField j "author").getD none
        homepage := (optStrField j "homepage").getD none
        transports := (transportsField j).getD none
        config := (configFieldD j).getD []
        install_dir := (optStrField j "installDir").getD none
        categories := (strListFieldD j "categories").getD []
        capabilities := (strListFieldD j "capabilities").getD []
        permissions := (strListFieldD j "permissions").getD []
        tools := (jsonListFieldD j "tools").getD [] }
    else none
  | _ => none

/-- Parse one index entry: an object with a required string `location`. -/
def parseIndexEntry (j : Json) : Option String :=
  match j with
  | .obj kvs =>
    match objLookup kvs "location" with
    | some (.str s) => some s
    | _ => none
  | _ => none

/-- Typed deserialization of the index (`serde_json::from_str::<Index>`):
the root must be an object with a `servers` object whose values each carry a
string `location`.  Yields the list of `(id, location)` pairs. -/
def parseIndex (j : Json) : Option (List (String × String)) :=
  match j with
  | .obj _ =>
    match j.get "servers" with
    | some (.obj kvs) => kvs.mapM fun kv => (parseIndexEntry kv.2).map (kv.1, ·)
    | _ => none
  | _ => none

/-- Display record for one installed server (`discovery::ServerInfo`). -/
structure ServerInfo where
  id : String
  name : String
  version : String
  transport_type : String
  scope : Scope
deriving Repr, DecidableEq, Inhabited

/-- `discovery::transport_type_name`. -/
def transport_type_name : Transport → String
  | .stdio _ _ _ => "stdio"
  | .sse _ _ => "sse"
  | .webSocket _ _ => "websocket"

/-- The on-disk world visible to discovery and the mutation engine:
each scope's index file plus the manifest files addressed by location path. -/
structure World where
  userIndex : FileState
  systemIndex : FileState
  files : String → FileState
  userSources : Option String
  systemSources : Option String

/-- Processing of a single index entry inside `discovery::load_from_scope`:
a missing or unparsable manifest skips the entry (`continue`); otherwise the
`ServerInfo` is built, with the reported id being the manifest's own `id`
when present and the index key otherwise. -/
def load_entry (files : String → FileState) (scope : Scope)
    (e : String × String) : Option ServerInfo :=
  match files e.2 with
  | .absent => none
  | .corrupt => none
  | .file mj =>
    match parseManifest mj with
    | none => none
    | some m =>
      some {
        id := m.id.getD e.1
        name := m.name.getD "Unknown"
        version := m.version.getD "?"
        transport_type :=
          ((m.transports.bind List.head?).map transport_type_name).getD "unknown"
        scope := scope }

/-- `discovery::load_from_scope`: absent index = successfully empty scope,
unparsable index = load failure (`none`), parsed index = per-entry loading
with skipping. -/
def load_from_scope (idx : FileState) (files : String → FileState)
    (scope : Scope) : Option (List ServerInfo) :=
  match idx with
  | .absent => some []
  | .corrupt => none
  | .file j =>
    match parseIndex j with
    | none => none
    | some entries => some (entries.filterMap (load_entry files scope))

/-- `HashMap::insert` keyed by `ServerInfo.id`: replaces an existing entry
with the same id, otherwise adds the entry. -/
def insertReplace : List ServerInfo → ServerInfo → List ServerInfo
  | [], v => [v]
  | w :: rest, v =>
    if w.id = v.id then v :: rest else w :: insertReplace rest v

/-- `HashMap::entry(..).or_insert`: keeps an existing entry with the same id,
otherwise adds the entry. -/
def insertIfAbsent (m : List ServerInfo) (v : ServerInfo) : List ServerInfo :=
  if m.any fun w => w.id = v.id then m else m ++ [v]

/-- Sort ascending by id (`result.sort_by(|a, b| a.id.cmp(&b.id))`). -/
def sortById (l : List ServerInfo) : List ServerInfo :=
  l.insertionSort fun a b => a.id ≤ b.id

/-- `discovery::list_servers`: user scope inserted first, system scope added
only for ids not already present, output sorted by id. -/
def list_servers (w : World) (includeUser includeSystem : Bool) :
    List ServerInfo :=
  let m1 : List ServerInfo :=
    if includeUser then
      match load_from_scope w.userIndex w.files .user with
      | some svs => svs.foldl insertReplace []
      | none => []
    else []
  let m2 : List ServerInfo :=
    if includeSystem then
      match load_from_scope w.systemIndex w.files .system with
      | some svs => svs.foldl insertIfAbsent m1
      | none => m1
    else m1
  sortById m2

/-! ### Mutation engine: index writes (`install.rs`) -/

/-- Failure kinds of an index mutation, merging the identical variants of
`InstallError` and `UninstallError`; `panicked` models a Rust panic from
`Value::index_mut` on a non-object. -/
inductive IdxErr where
  | readIndex : IdxErr
  | parseIndex : IdxErr
  | writeIndex : IdxErr
  | panicked : IdxErr
deriving Repr, DecidableEq

/-- Ambient environment of one mutation: the process's privilege state
(`is_elevated()`) and oracles for the file-system writes and the elevated
copy child process.  `copyRun = none` models `Command::status()` failing to
spawn `pkexec`; `copyRun = some b` models the copy exiting with
success flag `b`. -/
structure Env where
  elevated : Bool
  directWriteOk : Bool
  tempWriteOk : Bool
  copyRun : Option Bool
deriving Repr

/-- Observable outcome of one index mutation: the final content at the index
path, the temp file left behind (if any), which effects ran, and the error. -/
structure IdxWriteResult where
  newIndex : FileState
  tempAfter : Option Json
  tempWritten : Bool
  copyInvoked : Bool
  directWrite : Bool
  err : Option IdxErr
deriving Repr

/-- Result of a mutation that failed before reaching any write. -/
def noWriteResult (idx : FileState) (e : IdxErr) : IdxWriteResult :=
  { newIndex := idx, tempAfter := none, tempWritten := false,
    copyInvoked := false, directWrite := false, err := some e }

/-- The scope/privilege commit branch shared verbatim by `update_index_add`
and `update_index_remove`: system scope while elevated writes directly;
system scope while not elevated writes a temp file, invokes `pkexec cp`
onto the index path, deletes the temp file after the copy has run, and fails
on a non-zero exit; user scope writes directly.  A spawn failure of `pkexec`
returns early, before the temp file is deleted. -/
def commitIndex (env : Env) (idx : FileState) (scope : Scope)
    (output : Json) : IdxWriteResult :=
  if scope = Scope.system ∧ env.elevated then
    if env.directWriteOk then
      { newIndex := .file output, tempAfter := none, tempWritten := false,
        copyInvoked := false, directWrite := true, err := none }
    else
      { newIndex := idx, tempAfter := none, tempWritten := false,
        copyInvoked := false, directWrite := true, err := some .writeIndex }
  else if scope = Scope.system then
    if env.tempWriteOk then
      match env.copyRun with
      | none =>
        { newIndex := idx, tempAfter := some output, tempWritten := true,
          copyInvoked := true, directWrite := false, err := some .writeIndex }
      | some true =>
        { newIndex := .file output, tempAfter := none, tempWritten := true,
          copyInvoked := true, directWrite := false, err := none }
      | some false =>
        { newIndex := idx, tempAfter := none, tempWritten := true,
          copyInvoked := true, directWrite := false, err := some .writeIndex }
    else
      { newIndex := idx, tempAfter := none, tempWritten := false,
        copyInvoked := false, directWrite := false, err := some .writeIndex }
  else
    if env.directWriteOk then
      { newIndex := .file output, tempAfter := none, tempWritten := false,
        copyInvoked := false, directWrite := true, err := none }
    else
      { newIndex := idx, tempAfter := none, tempWritten := false,
        copyInvoked := false, directWrite := true, err := some .writeIndex }

/-- Default index content used by `update_index_add` when the index file
cannot be read: parse of `{"servers":{},"version":"1.0"}`. -/
def defaultIndexJson : Json :=
  .obj [("servers", .obj []), ("version", .str "1.0")]

/-- The read/parse/modify phase of `update_index_add`: read the index
(defaulting when unreadable), parse it, ensure a `servers` object, set the
entry for `id`, and stamp `updated`. -/
def add_prep (idx : FileState) (id loc now : String) : Except IdxErr Json :=
  let content : Option Json :=
    match idx with
    | .absent => some defaultIndexJson
    | .corrupt => none
    | .file j => some j
  match content with
  | none => .error .parseIndex
  | some j =>
    match j with
    | .obj kvs =>
      let kvs1 :=
        if (objLookup kvs "servers").isNone then
          objInsert kvs "servers" (.obj []) else kvs
      match objLookup kvs1 "servers" with
      | some (.obj svs) =>
        let svs1 := objInsert svs id (.obj [("location", .str loc)])
        let kvs2 := objInsert kvs1 "servers" (.obj svs1)
        let kvs3 := objInsert kvs2 "updated" (.str now)
        .ok (.obj kvs3)
      | _ => .error .panicked
    | _ => .error .panicked

/-- `install::update_index_add`. -/
def update_index_add (env : Env) (idx : FileState) (scope : Scope)
    (id loc now : String) : IdxWriteResult :=
  match add_prep idx id loc now with
  | .error e => noWriteResult idx e
  | .ok output => commitIndex env idx scope output

/-- The read/parse/modify phase of `update_index_remove`: an unreadable
index is an error here (no defaulting); a `servers` value that is not an
object is silently left alone; `updated` is stamped. -/
def remove_prep (idx : FileState) (id now : String) : Except IdxErr Json :=
  match idx with
  | .absent => .error .readIndex
  | .corrupt => .error .parseIndex
  | .file j =>
    match j with
    | .obj kvs =>
      let kvs1 :=
        match objLookup kvs "servers" with
        | some (.obj svs) => objInsert kvs "servers" (.obj (objRemove svs id))
        | _ => kvs
      .ok (.obj (objInsert kvs1 "updated" (.str now)))
    | _ => .error .panicked

/-- `install::update_index_remove`. -/
def update_index_remove (env : Env) (idx : FileState) (scope : Scope)
    (id now : String) : IdxWriteResult :=
  match remove_prep idx id now with
  | .error e => noWriteResult idx e
  | .ok output => commitIndex env idx scope output

/-! ### Timestamp formatting (`install.rs`: `rfc3339_now` and helpers) -/

/-- Month lengths used by `doy_to_md` (no leap handling). -/
def days_in_month : List Nat := [31, 28, 31, 30, 31, 30, 31, 31, 30, 31, 30, 31]

/-- The loop inside `doy_to_md`. -/
def doyLoop : List Nat → Nat → Nat → Nat × Nat
  | [], _, _ => (12, 31)
  | dim :: rest, i, d =>
    if d ≤ dim then (i + 1, d) else doyLoop rest (i + 1) (d - dim)

/-- `install::doy_to_md`. -/
def doy_to_md (doy : Nat) : Nat × Nat :=
  doyLoop days_in_month 0 (doy + 1)

/-- `install::days_to_ymd` for a non-negative day count (all intermediate
values are non-negative there, so `Nat` arithmetic agrees with the `i64`
arithmetic of the source). -/
def days_to_ymd (days : Nat) : Nat × Nat × Nat :=
  let days := days + 719468
  let era := days / 146097
  let day_of_era := days - era * 146097
  let year_of_era :=
    (day_of_era - day_of_era / 1460 + day_of_era / 36524
      - day_of_era / 146096) / 365
  let year := year_of_era + era * 400
  let day_of_year :=
    day_of_era - (365 * year_of_era + year_of_era / 4 - year_of_era / 100)
  let md := doy_to_md day_of_year
  (year, md.1, md.2)

/-- `install::epoch_to_datetime` for non-negative epoch seconds. -/
def epoch_to_datetime (secs : Nat) : Nat × Nat × Nat × Nat × Nat × Nat :=
  let days := secs / 86400
  let time := (secs % 86400 + 86400) % 86400
  let hour := time / 3600
  let min := time % 3600 / 60
  let sec := time % 60
  let ymd := days_to_ymd days
  (ymd.1, ymd.2.1, ymd.2.2, hour, min, sec)

/-- Zero left-padding of a number to a width (the `{:04}`/`{:02}`/`{:09}`
format specifiers). -/
def padNum (width n : Nat) : String :=
  let s := toString n
  String.mk (List.replicate (width - s.length) '0') ++ s

/-- `install::rfc3339_now` evaluated at a given duration since the epoch. -/
def rfc3339_at (secs nsecs : Nat) : String :=
  let t := epoch_to_datetime secs
  padNum 4 t.1 ++ "-" ++ padNum 2 t.2.1 ++ "-" ++ padNum 2 t.2.2.1 ++ "T"
    ++ padNum 2 t.2.2.2.1 ++ ":" ++ padNum 2 t.2.2.2.2.1 ++ ":"
    ++ padNum 2 t.2.2.2.2.2 ++ "." ++ padNum 9 nsecs ++ "Z"

/-! Reference Gregorian conversion, written independently of the source's
algorithm: walk years from 1970, then months, with the standard leap rule. -/

/-- Standard Gregorian leap-year rule. -/
def isLeapYear (y : Nat) : Bool :=
  (y % 4 = 0 && y % 100 ≠ 0) || y % 400 = 0

/-- Days in a given year. -/
def daysInYearRef (y : Nat) : Nat := if isLeapYear y then 366 else 365

/-- Month lengths of a given year. -/
def monthLengthsRef (y : Nat) : List Nat :=
  [31, if isLeapYear y then 29 else 28, 31, 30, 31, 30, 31, 31, 30, 31, 30, 31]

/-- Walk the months of a year to locate a zero-based day of that year. -/
def monthWalk : List Nat → Nat → Nat → Nat × Nat
  | [], m, d => (m, d + 1)
  | dim :: rest, m, d =>
    if d < dim then (m, d + 1) else monthWalk rest (m + 1) (d - dim)

/-- Walk years starting from 1970 to locate a zero-based day count. -/
def yearWalk (y days : Nat) (fuel : Nat) : Nat × Nat × Nat :=
  match fuel with
  | 0 => (y, 0, 0)
  | fuel + 1 =>
    if days < daysInYearRef y then
      let md := monthWalk (monthLengthsRef y) 1 days
      (y, md.1, md.2)
    else
      yearWalk (y + 1) (days - daysInYearRef y) fuel

/-- Reference civil date for a day count since 1970-01-01 (the fuel bounds
the year walk; one year consumes at least 365 days, so `days` years always
suffice). -/
def civilFromDaysRef (days : Nat) : Nat × Nat × Nat :=
  yearWalk 1970 days (days + 1)

/-! ### Executable character-level string primitives

The Rust sources use `str::trim`, `trim_end`, `lines`, `starts_with`,
`ends_with` and `u32::from_str`; they are embedded here as executable
functions on the character list underlying a `String`. -/

/-- `str::trim`: drop whitespace from both ends. -/
def strTrim (s : String) : String :=
  ⟨((s.data.dropWhile Char.isWhitespace).reverse.dropWhile
      Char.isWhitespace).reverse⟩

/-- `str::trim_end`: drop trailing whitespace. -/
def strTrimEnd (s : String) : String :=
  ⟨(s.data.reverse.dropWhile Char.isWhitespace).reverse⟩

/-- Split a character list at a separator character. -/
def splitChAux (c : Char) : List Char → List Char → List (List Char)
  | [], acc => [acc.reverse]
  | x :: xs, acc =>
    if x = c then acc.reverse :: splitChAux c xs []
    else splitChAux c xs (x :: acc)

/-- The lines of a file's text (separator `'\n'`; Rust's `str::lines` also
drops a trailing `'\r'` per line and a final empty line, both of which are
absorbed by the per-line trim and the emptiness filter applied by every
caller). -/
def strLines (s : String) : List String :=
  (splitChAux '\n' s.data []).map String.mk

/-- `str::starts_with`. -/
def strStartsWith (s p : String) : Bool := p.data.isPrefixOf s.data

/-- `str::ends_with`. -/
def strEndsWith (s p : String) : Bool :=
  p.data.reverse.isPrefixOf s.data.reverse

/-- Decimal digit value of a character. -/
def charDigit (ch : Char) : Option Nat :=
  if ch.isDigit then some (ch.toNat - 48) else none

/-- Decimal reading of a non-empty all-digit string. -/
def digitsToNat (s : String) : Option Nat :=
  match s.data with
  | [] => none
  | l => l.foldl (fun acc ch => acc.bind fun a =>
      (charDigit ch).map fun d => a * 10 + d) (some 0)

/-! ### Single-server lookup (`discovery.rs`) and Config-Set (`config.rs`) -/

/-- The index half of `discovery::load_server_from_scope`: read and parse
the scope's index and look the id up among its entries, yielding the
recorded manifest location. -/
def lsfsLoc (idx : FileState) (id : String) : Option String :=
  match idx with
  | .file j =>
    match parseIndex j with
    | none => none
    | some entries => (entries.find? fun e => e.1 = id).map (·.2)
  | _ => none

/-- `discovery::load_server_from_scope`: read and parse the scope's index,
look the id up among its entries, then read and parse the manifest at the
recorded location; any failure yields `none`. -/
def load_server_from_scope (idx : FileState) (files : String → FileState)
    (id : String) (scope : Scope) : Option (Manifest × Scope × String) :=
  match lsfsLoc idx id with
  | none => none
  | some loc =>
    match files loc with
    | .file mj =>
      match parseManifest mj with
      | none => none
      | some m => some (m, scope, loc)
    | _ => none

/-- `discovery::get_server`: user scope checked first. -/
def get_server (w : World) (id : String) : Option (Manifest × Scope) :=
  match load_server_from_scope w.userIndex w.files id .user with
  | some (m, s, _) => some (m, s)
  | none =>
    (load_server_from_scope w.systemIndex w.files id .system).map
      fun r => (r.1, r.2.1)

/-- `discovery::get_manifest_path`: user scope checked first. -/
def get_manifest_path (w : World) (id : String) : Option String :=
  match load_server_from_scope w.userIndex w.files id .user with
  | some (_, _, p) => some p
  | none =>
    (load_server_from_scope w.systemIndex w.files id .system).map (·.2.2)

/-- `config::SetConfigError` (`panicked` as for the index mutations). -/
inductive SetConfigError where
  | serverNotFound : SetConfigError
  | invalidManifest : SetConfigError
  | readFailed : SetConfigError
  | parseFailed : SetConfigError
  | writeFailed : SetConfigError
  | panicked : SetConfigError
deriving Repr, DecidableEq

/-- Observable outcome of `set_config_value`: the world after the call and
the commit effects that ran.  The source's only commit is `std::fs::write`
on the manifest path; it never stages a temp file and never invokes an
elevated copy, so those effects are recorded alongside for comparison with
the shared index-write protocol. -/
structure ConfigResult where
  world : World
  wrotePath : Option String
  tempWritten : Bool
  copyInvoked : Bool
  err : Option SetConfigError

/-- Replace the content of one manifest file in the world. -/
def setFile (w : World) (p : String) (j : Json) : World :=
  { w with files := fun q => if q = p then .file j else w.files q }

/-- `config::set_config_value`: resolve the manifest path (user scope
first), load the manifest as raw JSON, ensure a `config` object, upsert the
one key to a string, and write the result directly back to the manifest
path. -/
def set_config_value (writeOk : Bool) (w : World) (id key value : String) :
    ConfigResult :=
  match get_manifest_path w id with
  | none => ⟨w, none, false, false, some .serverNotFound⟩
  | some path =>
    match w.files path with
    | .absent => ⟨w, none, false, false, some .readFailed⟩
    | .corrupt => ⟨w, none, false, false, some .parseFailed⟩
    | .file j =>
      match j with
      | .obj kvs =>
        let kvs1 :=
          if (objLookup kvs "config").isNone then
            objInsert kvs "config" (.obj []) else kvs
        match objLookup kvs1 "config" with
        | some (.obj cfg) =>
          let out := Json.obj
            (objInsert kvs1 "config" (.obj (objInsert cfg key (.str value))))
          if writeOk then
            ⟨setFile w path out, some path, false, false, none⟩
          else
            ⟨w, some path, false, false, some .writeFailed⟩
        | _ => ⟨w, none, false, false, some .invalidManifest⟩
      | _ => ⟨w, none, false, false, some .panicked⟩

/-- Config-Get of one key (`main.rs`, `ConfigAction::Get` with a key):
load the typed manifest via `get_server` and look the key up in its
configuration mapping. -/
def config_get (w : World) (id key : String) : Option Json :=
  (get_server w id).bind fun ms => objLookup ms.1.config key

/-! ### Sources registry (`sources.rs`) -/

/-- `sources::SourceScope`. -/
inductive SourceScope where
  | user : SourceScope
  | system : SourceScope
deriving Repr, DecidableEq

/-- `sources::SourcesError`. -/
inductive SourcesError where
  | invalidUrl : SourcesError
  | alreadyExists : SourcesError
  | notFound : SourcesError
  | createDir : SourcesError
  | readFailed : SourcesError
  | writeFailed : SourcesError
deriving Repr, DecidableEq

/-- Extract the registry URLs from a sources file's text: one per trimmed,
non-empty, non-`#` line (`read_sources_file`'s line processing). -/
def sourcesLines (content : String) : List String :=
  ((strLines content).map strTrim).filter
    fun l => !l.isEmpty && !(strStartsWith l "#")

/-- `sources::read_sources_file`: an unreadable file contributes nothing. -/
def read_sources_file (f : Option String) : List String :=
  match f with
  | none => []
  | some c => sourcesLines c

/-- `sources::list_sources`: user entries first, then system entries,
with no deduplication. -/
def list_sources (w : World) (include_user include_system : Bool) :
    List (String × SourceScope) :=
  (if include_user then
    (read_sources_file w.userSources).map fun u => (u, SourceScope.user)
   else [])
  ++
  (if include_system then
    (read_sources_file w.systemSources).map fun u => (u, SourceScope.system)
   else [])

/-- The sources file of a scope. -/
def sourcesOf (w : World) : SourceScope → Option String
  | .user => w.userSources
  | .system => w.systemSources

/-- Replace the sources file of a scope. -/
def setSources (w : World) (scope : SourceScope) (c : String) : World :=
  match scope with
  | .user => { w with userSources := some c }
  | .system => { w with systemSources := some c }

/-- `sources::add_source`: trim and reject an empty URL, ensure the parent
directory, read the current file (defaulting to empty), reject a URL already
present among that scope's entries, else append it on its own line.
`createOk`/`writeOk` are the oracles for the two fallible file-system
operations. -/
def add_source (createOk writeOk : Bool) (w : World) (url : String)
    (scope : SourceScope) : World × Option SourcesError :=
  let url := strTrim url
  if url = "" then (w, some .invalidUrl)
  else if !createOk then (w, some .createDir)
  else
    let content := (sourcesOf w scope).getD ""
    let urls := sourcesLines content
    if url ∈ urls then (w, some .alreadyExists)
    else
      let nc0 := strTrimEnd content
      let nc1 :=
        if !nc0.isEmpty && !(strEndsWith nc0 "\n") then nc0 ++ "\n" else nc0
      let nc := nc1 ++ url ++ "\n"
      if writeOk then (setSources w scope nc, none)
      else (w, some .writeFailed)

/-! ### Registry fetch (`install.rs`: `fetch_server_from_registry`) -/

/-- Outcome of `GET url` as consumed by the fetch loop: a send error, a
non-2xx status, or a 2xx body that parses as JSON (`some`) or not
(`none`). -/
inductive Resp where
  | sendErr : Resp
  | httpNotOk : Resp
  | okBody (b : Option Json) : Resp

/-- The fetch-relevant variants of `install::InstallError`. -/
inductive FetchErr where
  | noSources : FetchErr
  | serverNotFound : FetchErr
  | invalidRegistry : FetchErr
  | fetchFailed : FetchErr
deriving Repr, DecidableEq

/-- Does this registry server entry's `id` field match the requested id
(`server.get("id").and_then(as_str) == Some(id)`)? -/
def serverIdMatches (id : String) (s : Json) : Bool :=
  match s.get "id" with
  | some (.str i) => i = id
  | _ => false

/-- The per-source loop of `fetch_server_from_registry`: a send or body
parse failure aborts, a non-2xx status skips the source, a registry without
a `servers` array aborts, the first entry with the matching id wins. -/
def fetchLoop (net : String → Resp) (id : String) :
    List (String × SourceScope) → Except FetchErr Json
  | [] => .error .serverNotFound
  | (url, _) :: rest =>
    match net url with
    | .sendErr => .error .fetchFailed
    | .httpNotOk => fetchLoop net id rest
    | .okBody none => .error .fetchFailed
    | .okBody (some registry) =>
      match registry.get "servers" with
      | some (.arr servers) =>
        match servers.find? (serverIdMatches id) with
        | some server => .ok server
        | none => fetchLoop net id rest
      | _ => .error .invalidRegistry

/-- `install::fetch_server_from_registry`: all configured sources, user
scope before system scope; no sources at all is its own failure kind. -/
def fetch_server_from_registry (net : String → Resp) (w : World)
    (id : String) : Except FetchErr Json :=
  let sources := list_sources w true true
  if sources.isEmpty then .error .noSources
  else fetchLoop net id sources

/-! ### Connect id generation (`connect.rs`: `next_connected_server_id`) -/

/-- Rust's `u32::from_str`: an optional leading `+`, then decimal digits,
value below `2^32`. -/
def parseU32 (s : String) : Option Nat :=
  let t := if strStartsWith s "+" then ⟨s.data.drop 1⟩ else s
  match digitsToNat t with
  | some n => if n < 4294967296 then some n else none
  | none => none

/-- The characters of `s` after a leading occurrence of `p`, when there is
one (`str::strip_prefix`). -/
def stripPfx (p s : String) : Option String :=
  if strStartsWith s p then some ⟨s.data.drop p.data.length⟩ else none

/-- The fixed identifier stem used by connect. -/
def connectedStem : String := "com.user.connected.server"

/-- The index file of the target scope. -/
def indexOf (w : World) : Scope → FileState
  | .user => w.userIndex
  | .system => w.systemIndex

/-- The max-suffix fold of `next_connected_server_id`. -/
def maxSuffixFold (servers : List (String × Json)) : Nat :=
  servers.foldl
    (fun acc kv =>
      match (stripPfx connectedStem kv.1).bind parseU32 with
      | some n => if n > acc then n else acc
      | none => acc)
    0

/-- `connect::next_connected_server_id`: read the target scope's index
(defaulting when unreadable), take the `servers` object if it is one,
find the maximal `u32` suffix among keys of the form stem-plus-integer
(zero when none), and allocate max + 1 (a `u32` addition, hence the
wrap-around modulus). -/
def next_connected_server_id (w : World) (scope : Scope) :
    Except IdxErr String :=
  let content : Option Json :=
    match indexOf w scope with
    | .absent => some defaultIndexJson
    | .corrupt => none
    | .file j => some j
  match content with
  | none => .error .parseIndex
  | some j =>
    let servers : List (String × Json) :=
      match j.get "servers" with
      | some (.obj kvs) => kvs
      | _ => []
    .ok (connectedStem ++ toString ((maxSuffixFold servers + 1) % 4294967296))

/-! ### Basic lemmas about object association lists -/

theorem objLookup_objInsert_self (kvs : List (String × Json)) (k : String)
    (v : Json) : objLookup (objInsert kvs k v) k = some v := by
  induction kvs with
  | nil => simp [objInsert, objLookup]
  | cons kv rest ih =>
    by_cases h : kv.1 = k
    · simp [objInsert, objLookup, h]
    · simp [objInsert, objLookup, h, ih]

theorem objLookup_objInsert_ne (kvs : List (String × Json)) (k k' : String)
    (v : Json) (h : k ≠ k') :
    objLookup (objInsert kvs k v) k' = objLookup kvs k' := by
  induction kvs with
  | nil => simp [objInsert, objLookup, h]
  | cons kv rest ih =>
    by_cases hk : kv.1 = k
    · simp [objInsert, objLookup, hk, h]
    · simp only [objInsert, hk, if_false, objLookup]
      by_cases hk' : kv.1 = k' <;> simp [hk', ih]

theorem objLookup_objRemove_ne (kvs : List (String × Json)) (k k' : String)
    (h : k ≠ k') :
    objLookup (objRemove kvs k) k' = objLookup kvs k' := by
  induction kvs with
  | nil => simp [objRemove, objLookup]
  | cons kv rest ih =>
    by_cases hk : kv.1 = k
    · have : kv.1 ≠ k' := hk ▸ h
      simp [objRemove, objLookup, hk, this, h]
    · simp only [objRemove, hk, if_false, objLookup]
      by_cases hk' : kv.1 = k' <;> simp [hk', ih]

/-! ### C8 — the `updated` timestamp's civil-date conversion -/

/-- C8: every index mutation stamps `updated` with the output of the
hand-rolled epoch-to-civil-date conversion, but that conversion does NOT
agree with the reference Gregorian conversion: it computes the day-of-year
in the March-based year of the civil-from-days algorithm and then feeds it
into a January-based month table.  At epoch second 0 the code produces
1969-11-03 where the reference Gregorian conversion gives 1970-01-01, and
at day 20738 (2026-10-12) it produces 2026-08-14. -/
theorem c8_epoch_conversion_disagrees_with_gregorian :
    days_to_ymd 0 = (1969, 11, 3) ∧
    civilFromDaysRef 0 = (1970, 1, 1) ∧
    rfc3339_at 0 0 = "1969-11-03T00:00:00.000000000Z" ∧
    days_to_ymd 20738 = (2026, 8, 14) ∧
    civilFromDaysRef 20738 = (2026, 10, 12) :=
  ⟨rfl, rfl, rfl, rfl, rfl⟩

/-! ### C9 — duplicate handling in the sources registry -/

/-- A world with the URL `https://a` configured in both scopes' sources
files and nothing else on disk. -/
def c9World : World :=
  { userIndex := .absent, systemIndex := .absent, files := fun _ => .absent,
    userSources := some "https://a\n", systemSources := some "https://a\n" }

/-- C9 counterexample: adding a URL already present in that scope's file is
REJECTED with the already-exists failure (the claim says it succeeds and
appends), and merging both scopes does NOT deduplicate: a URL present in
both scopes is returned twice by `list_sources`. -/
theorem c9_counterexample :
    (add_source true true c9World "https://a" SourceScope.user).2 =
      some SourcesError.alreadyExists ∧
    list_sources c9World true true =
      [("https://a", SourceScope.user), ("https://a", SourceScope.system)] :=
  ⟨rfl, rfl⟩

/-- C9 amended: within a single scope `add_source` rejects a duplicate —
it fails with the already-exists error exactly when the trimmed URL is
non-empty, the directory step succeeded and the URL is already among that
scope's entries — and merging both scopes performs no deduplication:
`list_sources` returns every user-scope entry followed by every
system-scope entry. -/
theorem c9_no_dedup_on_merge_reject_dup_in_scope (createOk writeOk : Bool)
    (w : World) (url : String) (scope : SourceScope) :
    ((add_source createOk writeOk w url scope).2 =
        some SourcesError.alreadyExists ↔
      strTrim url ≠ "" ∧ createOk = true ∧
        strTrim url ∈ sourcesLines ((sourcesOf w scope).getD "")) ∧
    list_sources w true true =
      (read_sources_file w.userSources).map (fun u => (u, SourceScope.user))
        ++ (read_sources_file w.systemSources).map
            (fun u => (u, SourceScope.system)) := by
  constructor
  · unfold add_source
    by_cases h1 : strTrim url = ""
    · simp [h1]
    · by_cases h2 : createOk
      · by_cases h3 : strTrim url ∈ sourcesLines ((sourcesOf w scope).getD "")
        · simp [h1, h2, h3]
        · by_cases h4 : writeOk <;> simp [h1, h2, h3, h4]
      · simp [h1, h2]
  · simp [list_sources]

/-- Closed instantiation of the amended C9 theorem at a concrete state. -/
theorem c9_no_dedup_on_merge_reject_dup_in_scope_witness :
    (add_source true true c9World "https://a" SourceScope.user).2 =
      some SourcesError.alreadyExists := by
  have h := (c9_no_dedup_on_merge_reject_dup_in_scope true true c9World
    "https://a" SourceScope.user).1
  exact h.mpr ⟨by decide, rfl, by decide⟩

/-! ### C7 — connect id generation -/

/-- The integer suffixes of the index keys that consist of the fixed stem
followed by an integer, as the claim describes them. -/
def connectSuffixes (keys : List String) : List Nat :=
  keys.filterMap fun k => (stripPfx connectedStem k).bind parseU32

theorem max_if_gt (n acc : Nat) : (if n > acc then n else acc) = max acc n := by
  rw [Nat.max_def]; split <;> split <;> omega

theorem maxSuffixFold_from (kvs : List (String × Json)) (acc : Nat) :
    kvs.foldl
      (fun acc kv =>
        match (stripPfx connectedStem kv.1).bind parseU32 with
        | some n => if n > acc then n else acc
        | none => acc)
      acc
    = max acc ((connectSuffixes (kvs.map Prod.fst)).foldr max 0) := by
  induction kvs generalizing acc with
  | nil => simp [connectSuffixes]
  | cons kv rest ih =>
    simp only [List.foldl, List.map, connectSuffixes, List.filterMap]
    cases h : (stripPfx connectedStem kv.1).bind parseU32 with
    | none =>
      simpa [h, connectSuffixes] using ih acc
    | some n =>
      dsimp only
      rw [max_if_gt, ih (max acc n)]
      simp [connectSuffixes, List.foldr, Nat.max_assoc]

theorem maxSuffixFold_eq (kvs : List (String × Json)) :
    maxSuffixFold kvs = (connectSuffixes (kvs.map Prod.fst)).foldr max 0 := by
  have h := maxSuffixFold_from kvs 0
  simpa [maxSuffixFold] using h

/-- A user-scope index that has held connected servers 1, 2 and 3, with
server 2 since removed: keys `…server1` and `…server3` remain. -/
def c7World : World :=
  { userIndex := .file (.obj [("servers", .obj
      [("com.user.connected.server1", .obj [("location", .str "/a")]),
       ("com.user.connected.server3", .obj [("location", .str "/b")])])]),
    systemIndex := .absent, files := fun _ => .absent,
    userSources := none, systemSources := none }

/-- C7: the generated identifier is the fixed stem followed by max + 1,
where max is the maximal integer suffix among the target scope's index keys
of the form stem-plus-integer (zero when none match, in particular for an
absent index); the generator reads only the target scope's index; and after
servers 1, 2, 3 with server 2 removed the next identifier is `…server4`,
not a reused `…server2`. -/
theorem c7_next_connected_id (w : World) (scope : Scope) :
    (∀ j kvs, indexOf w scope = .file j →
      j.get "servers" = some (.obj kvs) →
      (connectSuffixes (kvs.map Prod.fst)).foldr max 0 < 4294967295 →
      next_connected_server_id w scope =
        .ok (connectedStem ++
          toString ((connectSuffixes (kvs.map Prod.fst)).foldr max 0 + 1))) ∧
    (indexOf w scope = .absent →
      next_connected_server_id w scope = .ok (connectedStem ++ "1")) ∧
    (∀ w', indexOf w scope = indexOf w' scope →
      next_connected_server_id w scope = next_connected_server_id w' scope) ∧
    next_connected_server_id c7World .user =
      .ok "com.user.connected.server4" := by
  refine ⟨?_, ?_, ?_, ?_⟩
  · intro j kvs hidx hsv hlt
    unfold next_connected_server_id
    rw [hidx]
    simp only [hsv, maxSuffixFold_eq]
    have hmod : ((connectSuffixes (kvs.map Prod.fst)).foldr max 0 + 1) %
        4294967296 = (connectSuffixes (kvs.map Prod.fst)).foldr max 0 + 1 :=
      Nat.mod_eq_of_lt (by omega)
    rw [hmod]
  · intro hidx
    unfold next_connected_server_id
    rw [hidx]
    rfl
  · intro w' hagree
    unfold next_connected_server_id
    rw [hagree]
  · rfl

/-- Closed instantiation of the C7 theorem: the generated id for the
concrete post-removal index, through the general formula. -/
theorem c7_next_connected_id_witness :
    next_connected_server_id c7World .user =
      .ok (connectedStem ++ toString
        ((connectSuffixes
          ([("com.user.connected.server1",
              Json.obj [("location", Json.str "/a")]),
            ("com.user.connected.server3",
              Json.obj [("location", Json.str "/b")])].map Prod.fst)).foldr
                max 0 + 1)) :=
  (c7_next_connected_id c7World .user).1 _ _ rfl rfl (by decide)

/-! ### C6 — registry scan order and failure kinds -/

/-- A source that the fetch loop scans and passes over: a non-2xx response,
or a well-formed registry whose `servers` array has no entry with the
requested id. -/
def scannableNoMatch (net : String → Resp) (id : String)
    (src : String × SourceScope) : Prop :=
  net src.1 = .httpNotOk ∨
  ∃ registry servers, net src.1 = .okBody (some registry) ∧
    registry.get "servers" = some (.arr servers) ∧
    servers.find? (serverIdMatches id) = none

theorem fetchLoop_skip (net : String → Resp) (id : String)
    (src : String × SourceScope) (rest : List (String × SourceScope))
    (h : scannableNoMatch net id src) :
    fetchLoop net id (src :: rest) = fetchLoop net id rest := by
  obtain ⟨s, scope⟩ := src
  rcases h with h | ⟨registry, servers, h1, h2, h3⟩
  · simp only [fetchLoop]
    rw [h]
  · simp only [fetchLoop]
    rw [h1]
    simp [h2, h3]

/-- The registry served at `https://b` in the counterexample: it contains
the requested server `x`. -/
def c6Registry : Json :=
  .obj [("servers", .arr [.obj [("id", .str "x")]])]

/-- Network oracle for the counterexample: `https://a` answers 200 with a
JSON object that has no `servers` array; `https://b` answers with a
well-formed registry containing `x`. -/
def c6Net : String → Resp := fun u =>
  if u = "https://a" then .okBody (some (.obj []))
  else if u = "https://b" then .okBody (some c6Registry)
  else .sendErr

/-- Sources list configuring `https://a` before `https://b`, user scope. -/
def c6World : World :=
  { userIndex := .absent, systemIndex := .absent, files := fun _ => .absent,
    userSources := some "https://a\nhttps://b\n", systemSources := none }

/-- C6 counterexample: with source `https://a` answering a 200 JSON object
without a `servers` array, install's fetch fails with the invalid-registry
kind without scanning the later source `https://b`, even though `https://b`
contains the requested id (scanning it alone finds the entry); so the fetch
does not fail with the not-found kind only after every source has been
scanned. -/
theorem c6_counterexample :
    fetch_server_from_registry c6Net c6World "x" =
      .error FetchErr.invalidRegistry ∧
    fetchLoop c6Net "x" [("https://b", SourceScope.user)] =
      .ok (.obj [("id", .str "x")]) ∧
    (Except.error FetchErr.invalidRegistry : Except FetchErr Json) ≠
      .error FetchErr.serverNotFound := by
  refine ⟨rfl, rfl, fun h => ?_⟩
  have := Except.error.inj h
  exact absurd this (by decide)

/-- C6 amended: the fetch scans the configured sources in order, user scope
before system scope; no sources at all is the distinct no-sources failure;
if every source is scanned without a match (non-2xx, or a well-formed
registry without the id), the failure is the not-found kind; the first
source carrying the id — after passed-over sources — yields that entry;
but a send failure, an unparsable body, or a registry without a `servers`
array aborts the scan early with a fetch/invalid-registry failure instead. -/
theorem c6_fetch_scan (net : String → Resp) (w : World) (id : String) :
    (list_sources w true true = [] →
      fetch_server_from_registry net w id = .error FetchErr.noSources) ∧
    (list_sources w true true ≠ [] →
      (∀ src ∈ list_sources w true true, scannableNoMatch net id src) →
      fetch_server_from_registry net w id =
        .error FetchErr.serverNotFound) ∧
    (∀ (pre : List (String × SourceScope)) src rest registry servers sv,
      (∀ s ∈ pre, scannableNoMatch net id s) →
      net src.1 = .okBody (some registry) →
      registry.get "servers" = some (.arr servers) →
      servers.find? (serverIdMatches id) = some sv →
      fetchLoop net id (pre ++ src :: rest) = .ok sv) ∧
    list_sources w true true =
      (read_sources_file w.userSources).map (fun u => (u, SourceScope.user))
        ++ (read_sources_file w.systemSources).map
            (fun u => (u, SourceScope.system)) := by
  have skipAll : ∀ (l : List (String × SourceScope)),
      (∀ src ∈ l, scannableNoMatch net id src) →
      fetchLoop net id l = .error FetchErr.serverNotFound := by
    intro l
    induction l with
    | nil => intro _; rfl
    | cons src rest ih =>
      intro hall
      rw [fetchLoop_skip net id src rest (hall src (by simp))]
      exact ih fun s hs => hall s (by simp [hs])
  refine ⟨?_, ?_, ?_, by simp [list_sources]⟩
  · intro h
    simp [fetch_server_from_registry, h]
  · intro hne hall
    unfold fetch_server_from_registry
    rw [if_neg (by simpa using hne)]
    exact skipAll _ hall
  · intro pre src rest registry servers sv hpre h1 h2 h3
    induction pre with
    | nil =>
      obtain ⟨s, scope⟩ := src
      simp only [List.nil_append, fetchLoop]
      rw [h1]
      simp [h2, h3]
    | cons p ps ih =>
      rw [List.cons_append,
        fetchLoop_skip net id p _ (hpre p (by simp))]
      exact ih fun s hs => hpre s (by simp [hs])

/-- Closed instantiation of the amended C6 theorem: an empty sources state
fails with the no-sources kind, and a single matching source yields the
entry. -/
theorem c6_fetch_scan_witness :
    fetch_server_from_registry c6Net
      { userIndex := .absent, systemIndex := .absent,
        files := fun _ => .absent,
        userSources := none, systemSources := none } "x" =
      .error FetchErr.noSources ∧
    fetchLoop c6Net "x" [("https://b", SourceScope.user)] =
      .ok (.obj [("id", .str "x")]) := by
  constructor
  · exact (c6_fetch_scan c6Net
      { userIndex := .absent, systemIndex := .absent,
        files := fun _ => .absent,
        userSources := none, systemSources := none } "x").1 rfl
  · have h := (c6_fetch_scan c6Net c6World "x").2.2.1
      [] ("https://b", SourceScope.user) [] c6Registry
      [Json.obj [("id", Json.str "x")]] (Json.obj [("id", Json.str "x")])
      (by intro s hs; cases hs) rfl rfl rfl
    simpa using h

/-! ### C1 — the three-way commit branch of every index mutation -/

/-- Behaviour of a direct-write commit: no temp file, no elevated copy,
one direct write that succeeds exactly when the file system allows it. -/
def directCommitSpec (env : Env) (idx : FileState) (out : Json)
    (r : IdxWriteResult) : Prop :=
  r.tempWritten = false ∧ r.copyInvoked = false ∧ r.directWrite = true ∧
  r.tempAfter = none ∧
  (r.err = none ↔ env.directWriteOk = true) ∧
  (env.directWriteOk = true → r.newIndex = .file out) ∧
  (env.directWriteOk = false → r.newIndex = idx)

/-- Behaviour of the escalated commit: no direct write; when the temp write
succeeds, a temp file is staged and the elevated copy invoked; whenever the
copy has actually run (exited, with either status), the temp file is
deleted; the mutation succeeds exactly when the temp write succeeded and
the copy exited zero. -/
def escalatedCommitSpec (env : Env) (idx : FileState) (out : Json)
    (r : IdxWriteResult) : Prop :=
  r.directWrite = false ∧
  (env.tempWriteOk = true → r.tempWritten = true ∧ r.copyInvoked = true) ∧
  (r.err = none ↔ env.tempWriteOk = true ∧ env.copyRun = some true) ∧
  (∀ b, env.copyRun = some b → env.tempWriteOk = true →
    r.tempAfter = none) ∧
  (env.tempWriteOk = true ∧ env.copyRun = some true →
    r.newIndex = .file out) ∧
  (¬(env.tempWriteOk = true ∧ env.copyRun = some true) → r.newIndex = idx)

theorem commitIndex_user (env : Env) (idx : FileState) (out : Json) :
    directCommitSpec env idx out (commitIndex env idx .user out) := by
  cases hd : env.directWriteOk <;>
    simp [commitIndex, directCommitSpec, hd]

theorem commitIndex_system_elevated (env : Env) (idx : FileState)
    (out : Json) (h : env.elevated = true) :
    directCommitSpec env idx out (commitIndex env idx .system out) := by
  cases hd : env.directWriteOk <;>
    simp [commitIndex, directCommitSpec, hd, h]

theorem commitIndex_system_unelevated (env : Env) (idx : FileState)
    (out : Json) (h : env.elevated = false) :
    escalatedCommitSpec env idx out (commitIndex env idx .system out) := by
  cases ht : env.tempWriteOk
  · simp [commitIndex, escalatedCommitSpec, ht, h]
  · cases hc : env.copyRun with
    | none => simp [commitIndex, escalatedCommitSpec, ht, h, hc]
    | some b =>
      cases b <;> simp [commitIndex, escalatedCommitSpec, ht, h, hc]

/-- C1: every index mutation — entry add on install/connect, entry remove
on uninstall — commits through the three-way branch chosen by target scope
and privilege: user scope and elevated system scope write the serialized
index directly; non-elevated system scope stages a temp file, invokes one
elevated copy onto the index path, deletes the temp file whenever the copy
has run, and succeeds exactly when the copy exited zero; an earlier failing
step (read/parse/update) aborts with no write at all. -/
theorem c1_index_mutation_commit (env : Env) (idx : FileState)
    (scope : Scope) (id loc now : String) :
    (∀ out, add_prep idx id loc now = .ok out →
      (scope = .user →
        directCommitSpec env idx out
          (update_index_add env idx scope id loc now)) ∧
      (scope = .system → env.elevated = true →
        directCommitSpec env idx out
          (update_index_add env idx scope id loc now)) ∧
      (scope = .system → env.elevated = false →
        escalatedCommitSpec env idx out
          (update_index_add env idx scope id loc now))) ∧
    (∀ e, add_prep idx id loc now = .error e →
      update_index_add env idx scope id loc now = noWriteResult idx e) ∧
    (∀ out, remove_prep idx id now = .ok out →
      (scope = .user →
        directCommitSpec env idx out
          (update_index_remove env idx scope id now)) ∧
      (scope = .system → env.elevated = true →
        directCommitSpec env idx out
          (update_index_remove env idx scope id now)) ∧
      (scope = .system → env.elevated = false →
        escalatedCommitSpec env idx out
          (update_index_remove env idx scope id now))) ∧
    (∀ e, remove_prep idx id now = .error e →
      update_index_remove env idx scope id now = noWriteResult idx e) := by
  refine ⟨?_, ?_, ?_, ?_⟩
  · intro out hok
    refine ⟨?_, ?_, ?_⟩
    · intro hs
      subst hs
      simpa [update_index_add, hok] using commitIndex_user env idx out
    · intro hs he
      subst hs
      simpa [update_index_add, hok] using
        commitIndex_system_elevated env idx out he
    · intro hs he
      subst hs
      simpa [update_index_add, hok] using
        commitIndex_system_unelevated env idx out he
  · intro e herr
    simp [update_index_add, herr]
  · intro out hok
    refine ⟨?_, ?_, ?_⟩
    · intro hs
      subst hs
      simpa [update_index_remove, hok] using commitIndex_user env idx out
    · intro hs he
      subst hs
      simpa [update_index_remove, hok] using
        commitIndex_system_elevated env idx out he
    · intro hs he
      subst hs
      simpa [update_index_remove, hok] using
        commitIndex_system_unelevated env idx out he
  · intro e herr
    simp [update_index_remove, herr]

/-- The serialized index produced by adding entry `s ↦ /p` to an absent
index file. -/
def c1Out : Json :=
  .obj [("servers", .obj [("s", .obj [("location", .str "/p")])]),
        ("version", .str "1.0"), ("updated", .str "T")]

/-- Closed instantiation of the C1 theorem: a non-elevated system-scope add
onto an absent index follows the escalated commit, and a remove from an
absent index aborts with the read failure and no write. -/
theorem c1_index_mutation_commit_witness :
    escalatedCommitSpec ⟨false, true, true, some true⟩ .absent c1Out
      (update_index_add ⟨false, true, true, some true⟩ .absent .system
        "s" "/p" "T") ∧
    update_index_remove ⟨false, true, true, some true⟩ .absent .system
      "s" "T" = noWriteResult .absent .readIndex := by
  constructor
  · exact (((c1_index_mutation_commit ⟨false, true, true, some true⟩
      .absent .system "s" "/p" "T").1 c1Out rfl).2.2) rfl rfl
  · exact (c1_index_mutation_commit ⟨false, true, true, some true⟩
      .absent .system "s" "/p" "T").2.2.2 .readIndex rfl

/-! ### Discovery merge lemmas -/

/-- The comparison used by the final sort by id. -/
def infoLe (a b : ServerInfo) : Prop := a.id ≤ b.id

instance : DecidableRel infoLe :=
  fun a b => inferInstanceAs (Decidable (a.id ≤ b.id))

instance : IsTotal ServerInfo infoLe := ⟨fun a b => le_total a.id b.id⟩

instance : IsTrans ServerInfo infoLe := ⟨fun _ _ _ => le_trans⟩

theorem mem_of_mem_insertReplace {m : List ServerInfo} {v x : ServerInfo}
    (h : x ∈ insertReplace m v) : x ∈ m ∨ x = v := by
  induction m with
  | nil => simpa [insertReplace] using h
  | cons w rest ih =>
    by_cases hw : w.id = v.id
    · simp only [insertReplace, hw, if_true] at h
      rcases List.mem_cons.mp h with h | h
      · exact Or.inr h
      · exact Or.inl (List.mem_cons_of_mem _ h)
    · simp only [insertReplace, hw, if_false] at h
      rcases List.mem_cons.mp h with h | h
      · exact Or.inl (h ▸ List.mem_cons_self _ _)
      · rcases ih h with h | h
        · exact Or.inl (List.mem_cons_of_mem _ h)
        · exact Or.inr h

theorem id_mem_insertReplace_self (m : List ServerInfo) (v : ServerInfo) :
    v.id ∈ (insertReplace m v).map ServerInfo.id := by
  induction m with
  | nil => simp [insertReplace]
  | cons w rest ih =>
    by_cases hw : w.id = v.id
    · simp [insertReplace, hw]
    · simp only [insertReplace, hw, if_false, List.map, List.mem_cons]
      exact Or.inr ih

theorem ids_mono_insertReplace {m : List ServerInfo} {i : String}
    (v : ServerInfo) (h : i ∈ m.map ServerInfo.id) :
    i ∈ (insertReplace m v).map ServerInfo.id := by
  induction m with
  | nil => simp at h
  | cons w rest ih =>
    by_cases hw : w.id = v.id
    · simp only [insertReplace, hw, if_true]
      simp only [List.map, List.mem_cons] at h ⊢
      rcases h with h | h
      · exact Or.inl (by rw [h, hw])
      · exact Or.inr h
    · simp only [insertReplace, hw, if_false]
      simp only [List.map, List.mem_cons] at h ⊢
      rcases h with h | h
      · exact Or.inl h
      · exact Or.inr (ih h)

theorem foldl_insertReplace_subset {l : List ServerInfo}
    {m : List ServerInfo} {x : ServerInfo}
    (h : x ∈ l.foldl insertReplace m) : x ∈ m ∨ x ∈ l := by
  induction l generalizing m with
  | nil => exact Or.inl h
  | cons v rest ih =>
    rcases ih h with h1 | h1
    · rcases mem_of_mem_insertReplace h1 with h2 | h2
      · exact Or.inl h2
      · exact Or.inr (h2 ▸ List.mem_cons_self _ _)
    · exact Or.inr (List.mem_cons_of_mem _ h1)

theorem ids_mono_foldl_insertReplace {l m : List ServerInfo} {i : String}
    (h : i ∈ m.map ServerInfo.id) :
    i ∈ (l.foldl insertReplace m).map ServerInfo.id := by
  induction l generalizing m with
  | nil => exact h
  | cons v rest ih => exact ih (ids_mono_insertReplace v h)

theorem ids_cover_foldl_insertReplace {l m : List ServerInfo}
    {i : ServerInfo} (h : i ∈ l) :
    i.id ∈ (l.foldl insertReplace m).map ServerInfo.id := by
  induction l generalizing m with
  | nil => cases h
  | cons v rest ih =>
    rcases List.mem_cons.mp h with h1 | h1
    · subst h1
      rw [List.foldl_cons]
      exact ids_mono_foldl_insertReplace (id_mem_insertReplace_self m i)
    · rw [List.foldl_cons]
      exact ih h1

theorem mem_insertIfAbsent_keep {m : List ServerInfo} {x : ServerInfo}
    (v : ServerInfo) (h : x ∈ m) : x ∈ insertIfAbsent m v := by
  unfold insertIfAbsent
  split
  · exact h
  · exact List.mem_append_left _ h

theorem mem_of_mem_insertIfAbsent {m : List ServerInfo} {v x : ServerInfo}
    (h : x ∈ insertIfAbsent m v) : x ∈ m ∨ x = v := by
  unfold insertIfAbsent at h
  split at h
  · exact Or.inl h
  · rcases List.mem_append.mp h with h | h
    · exact Or.inl h
    · exact Or.inr (List.mem_singleton.mp h)

theorem ids_mono_insertIfAbsent {m : List ServerInfo} {i : String}
    (v : ServerInfo) (h : i ∈ m.map ServerInfo.id) :
    i ∈ (insertIfAbsent m v).map ServerInfo.id := by
  rcases List.mem_map.mp h with ⟨x, hx, hxi⟩
  exact List.mem_map.mpr ⟨x, mem_insertIfAbsent_keep v hx, hxi⟩

theorem mem_foldl_insertIfAbsent {l : List ServerInfo}
    {m : List ServerInfo} {x : ServerInfo}
    (h : x ∈ l.foldl insertIfAbsent m) :
    x ∈ m ∨ x.id ∉ m.map ServerInfo.id := by
  induction l generalizing m with
  | nil => exact Or.inl h
  | cons v rest ih =>
    rcases ih h with h1 | h1
    · rcases mem_of_mem_insertIfAbsent h1 with h2 | h2
      · exact Or.inl h2
      · subst h2
        unfold insertIfAbsent at h1
        split at h1
        · exact Or.inl h1
        · rename_i hany
          right
      -- the any-check failed, so no element of `m` carries this id
          intro hmem
          rcases List.mem_map.mp hmem with ⟨y, hy, hyi⟩
          exact hany (List.any_eq_true.mpr ⟨y, hy, by simp [hyi]⟩)
    · right
      intro hmem
      exact h1 (ids_mono_insertIfAbsent v hmem)

theorem ids_mono_foldl_insertIfAbsent {l m : List ServerInfo} {i : String}
    (h : i ∈ m.map ServerInfo.id) :
    i ∈ (l.foldl insertIfAbsent m).map ServerInfo.id := by
  induction l generalizing m with
  | nil => exact h
  | cons v rest ih => exact ih (ids_mono_insertIfAbsent v h)

theorem load_entry_scope {files : String → FileState} {scope : Scope}
    {e : String × String} {x : ServerInfo}
    (h : load_entry files scope e = some x) : x.scope = scope := by
  unfold load_entry at h
  split at h
  · cases h
  · cases h
  · split at h
    · cases h
    · cases h
      rfl

theorem load_from_scope_all_scope {idx : FileState}
    {files : String → FileState} {scope : Scope} {l : List ServerInfo}
    (h : load_from_scope idx files scope = some l) :
    ∀ x ∈ l, x.scope = scope := by
  unfold load_from_scope at h
  split at h
  · cases h
    intro x hx
    cases hx
  · cases h
  · split at h
    · cases h
    · cases h
      intro x hx
      rcases List.mem_filterMap.mp hx with ⟨e, _, he⟩
      exact load_entry_scope he

/-- Core merge fact: an entry of the merged listing whose id occurs among
the loaded user-scope entries is itself one of the loaded user-scope
entries — the system pass never replaces it. -/
theorem merged_mem_user {w : World} {uInfos : List ServerInfo}
    {v : ServerInfo}
    (hu : load_from_scope w.userIndex w.files .user = some uInfos)
    (hv : v ∈ list_servers w true true)
    (hid : v.id ∈ uInfos.map ServerInfo.id) : v ∈ uInfos := by
  have hv2 : v ∈ (match load_from_scope w.systemIndex w.files .system with
      | some svs => svs.foldl insertIfAbsent (uInfos.foldl insertReplace [])
      | none => uInfos.foldl insertReplace []) := by
    exact (List.mem_insertionSort infoLe).mp
      (by simpa [list_servers, hu, sortById] using hv)
  have hidL1 : v.id ∈ (uInfos.foldl insertReplace
      ([] : List ServerInfo)).map ServerInfo.id := by
    rcases List.mem_map.mp hid with ⟨x, hx, hxi⟩
    exact hxi ▸ ids_cover_foldl_insertReplace hx
  have hvL1 : v ∈ uInfos.foldl insertReplace [] := by
    cases hs : load_from_scope w.systemIndex w.files .system with
    | none =>
      rw [hs] at hv2
      exact hv2
    | some sInfos =>
      rw [hs] at hv2
      rcases mem_foldl_insertIfAbsent hv2 with h1 | h1
      · exact h1
      · exact absurd hidL1 h1
  rcases foldl_insertReplace_subset hvL1 with h1 | h1
  · cases h1
  · exact h1

/-! ### C3 — user-over-system merge, sorted output -/

/-- C3: `list_servers` over both scopes returns a list sorted ascending by
identifier; every returned entry whose id occurs among the loaded
user-scope entries IS one of the loaded user-scope entries (so a
system-scope entry never overwrites it), and every loaded user-scope entry
id is represented in the output. -/
theorem c3_user_precedence (w : World) :
    (list_servers w true true).Sorted infoLe ∧
    (∀ uInfos, load_from_scope w.userIndex w.files .user = some uInfos →
      (∀ v ∈ list_servers w true true,
        v.id ∈ uInfos.map ServerInfo.id → v ∈ uInfos ∧ v.scope = .user) ∧
      (∀ i ∈ uInfos, ∃ v ∈ list_servers w true true, v.id = i.id)) := by
  constructor
  · exact List.sorted_insertionSort infoLe _
  · intro uInfos hu
    have hall := load_from_scope_all_scope hu
    constructor
    · intro v hv hid
      have hvU : v ∈ uInfos := merged_mem_user hu hv hid
      exact ⟨hvU, hall v hvU⟩
    · intro i hi
      have hidL1 : i.id ∈ (uInfos.foldl insertReplace
          ([] : List ServerInfo)).map ServerInfo.id :=
        ids_cover_foldl_insertReplace hi
      have hidM2 : i.id ∈ (match load_from_scope w.systemIndex w.files
            .system with
          | some svs => svs.foldl insertIfAbsent (uInfos.foldl insertReplace [])
          | none => uInfos.foldl insertReplace []).map ServerInfo.id := by
        cases hs : load_from_scope w.systemIndex w.files .system with
        | none => exact hidL1
        | some sInfos => exact ids_mono_foldl_insertIfAbsent hidL1
      rcases List.mem_map.mp hidM2 with ⟨v, hv, hvi⟩
      refine ⟨v, ?_, hvi⟩
      have : v ∈ sortById (match load_from_scope w.systemIndex w.files
            .system with
          | some svs => svs.foldl insertIfAbsent (uInfos.foldl insertReplace [])
          | none => uInfos.foldl insertReplace []) :=
        (List.mem_insertionSort infoLe).mpr hv
      simpa [list_servers, hu, sortById] using this

/-- A world where both scopes install the same id `s`: the user manifest
reports name `U`, the system manifest name `S`. -/
def c3World : World :=
  { userIndex := .file (.obj [("servers", .obj
      [("s", .obj [("location", .str "/u")])])]),
    systemIndex := .file (.obj [("servers", .obj
      [("s", .obj [("location", .str "/s")])])]),
    files := fun p =>
      if p = "/u" then .file (.obj [("id", .str "s"), ("name", .str "U")])
      else if p = "/s" then
        .file (.obj [("id", .str "s"), ("name", .str "S")])
      else .absent,
    userSources := none, systemSources := none }

/-- The user-scope entry loaded from `c3World`. -/
def c3uInfo : ServerInfo :=
  { id := "s", name := "U", version := "?", transport_type := "unknown",
    scope := .user }

/-- Closed instantiation of the C3 theorem at `c3World`. -/
theorem c3_user_precedence_witness :
    ∃ v ∈ list_servers c3World true true, v.id = "s" :=
  ((c3_user_precedence c3World).2 [c3uInfo] rfl).2 c3uInfo (by simp)

/-! ### C4 — tolerant discovery reads -/

/-- C4: discovery never fails.  An absent index file is a successfully
loaded empty scope; an unparsable index makes that scope contribute zero
entries while the other scope is processed exactly as if the failed scope
had not been requested; within a parsed index, an entry whose manifest is
missing, unreadable or unparsable is dropped without affecting the entries
around it. -/
theorem c4_discovery_tolerance (w : World) :
    (∀ (files : String → FileState) (scope : Scope),
      load_from_scope .absent files scope = some []) ∧
    (w.userIndex = .absent →
      list_servers w true true = list_servers w false true) ∧
    (load_from_scope w.userIndex w.files .user = none →
      list_servers w true true = list_servers w false true) ∧
    (load_from_scope w.systemIndex w.files .system = none →
      list_servers w true true = list_servers w true false) ∧
    (∀ (files : String → FileState) (scope : Scope)
        (pre post : List (String × String)) (e : String × String),
      (files e.2 = .absent ∨ files e.2 = .corrupt ∨
        ∃ mj, files e.2 = .file mj ∧ parseManifest mj = none) →
      (pre ++ e :: post).filterMap (load_entry files scope) =
        (pre ++ post).filterMap (load_entry files scope)) := by
  refine ⟨fun _ _ => rfl, ?_, ?_, ?_, ?_⟩
  · intro h
    simp [list_servers, load_from_scope, h]
  · intro h
    simp [list_servers, h]
  · intro h
    simp [list_servers, h]
  · intro files scope pre post e hbad
    have hnone : load_entry files scope e = none := by
      rcases hbad with h | h | ⟨mj, h, hp⟩
      · simp [load_entry, h]
      · simp [load_entry, h]
      · simp [load_entry, h, hp]
    simp [List.filterMap_append, List.filterMap_cons, hnone]

/-- Closed instantiation of the C4 theorem: an all-absent world, and a
dropped entry in a concrete three-entry index segment. -/
theorem c4_discovery_tolerance_witness :
    list_servers
      { userIndex := .absent, systemIndex := .absent,
        files := fun _ => .absent,
        userSources := none, systemSources := none } true true =
    list_servers
      { userIndex := .absent, systemIndex := .absent,
        files := fun _ => .absent,
        userSources := none, systemSources := none } false true ∧
    ([("a", "/a"), ("b", "/b")] ++ ("x", "/x") :: [("c", "/c")]).filterMap
        (load_entry (fun _ => FileState.absent) .user) =
      ([("a", "/a"), ("b", "/b")] ++ [("c", "/c")]).filterMap
        (load_entry (fun _ => FileState.absent) .user) := by
  constructor
  · exact (c4_discovery_tolerance
      { userIndex := .absent, systemIndex := .absent,
        files := fun _ => .absent,
        userSources := none, systemSources := none }).2.1 rfl
  · exact (c4_discovery_tolerance
      { userIndex := .absent, systemIndex := .absent,
        files := fun _ => .absent,
        userSources := none, systemSources := none }).2.2.2.2
      (fun _ => FileState.absent) .user [("a", "/a"), ("b", "/b")]
      [("c", "/c")] ("x", "/x") (Or.inl rfl)

/-! ### C10 — the reported id is the manifest's own id when present -/

/-- C10: for an index entry whose manifest parses, the id that discovery
reports — and keys the merge by — is the manifest's own `id` field when
present and the index key only otherwise; consequently a system-scope entry
survives the merge only when its reported id is absent from the reported
ids of the user scope. -/
theorem c10_reported_id (w : World) :
    (∀ (files : String → FileState) (scope : Scope) (id loc : String)
        (mj : Json) (m : Manifest),
      files loc = .file mj → parseManifest mj = some m →
      (load_entry files scope (id, loc)).map ServerInfo.id =
        some (m.id.getD id)) ∧
    (∀ v uInfos, v ∈ list_servers w true true → v.scope = .system →
      load_from_scope w.userIndex w.files .user = some uInfos →
      v.id ∉ uInfos.map ServerInfo.id) := by
  constructor
  · intro files scope id loc mj m h1 h2
    simp [load_entry, h1, h2]
  · intro v uInfos hv hsys hu
    intro hid
    have hvU : v ∈ uInfos := merged_mem_user hu hv hid
    have := load_from_scope_all_scope hu v hvU
    rw [this] at hsys
    cases hsys

/-- A manifest whose `id` field (`other`) differs from its index key
(`key`). -/
def c10Manifest : Json := .obj [("id", .str "other")]

/-- Closed instantiation of the C10 theorem: the entry indexed under `key`
is reported under the manifest's own id `other`. -/
theorem c10_reported_id_witness :
    (load_entry (fun p => if p = "/m" then .file c10Manifest else .absent)
        .user ("key", "/m")).map ServerInfo.id = some "other" := by
  have h := (c10_reported_id
    { userIndex := .absent, systemIndex := .absent,
      files := fun _ => .absent,
      userSources := none, systemSources := none }).1
    (fun p => if p = "/m" then .file c10Manifest else .absent) .user
    "key" "/m" c10Manifest
    { id := some "other", name := none, summary := none, version := none,
      description := none, author := none, homepage := none,
      transports := none, config := [], install_dir := none,
      categories := [], capabilities := [], permissions := [], tools := [] }
    (by simp) rfl
  simpa using h

/-! ### Stability of the typed manifest parse under a config update -/

theorem Json_get_objInsert_ne (kvs : List (String × Json)) (k k' : String)
    (v : Json) (h : k ≠ k') :
    (Json.obj (objInsert kvs k v)).get k' = (Json.obj kvs).get k' := by
  simp [Json.get, objLookup_objInsert_ne _ _ _ _ h]

theorem optStrField_objInsert_ne (kvs : List (String × Json)) (k k' : String)
    (v : Json) (h : k ≠ k') :
    optStrField (.obj (objInsert kvs k v)) k' = optStrField (.obj kvs) k' := by
  unfold optStrField
  rw [Json_get_objInsert_ne _ _ _ _ h]

theorem transportsField_objInsert_ne (kvs : List (String × Json))
    (k : String) (v : Json) (h : k ≠ "transports") :
    transportsField (.obj (objInsert kvs k v)) = transportsField (.obj kvs) := by
  unfold transportsField
  rw [Json_get_objInsert_ne _ _ _ _ h]

theorem strListFieldD_objInsert_ne (kvs : List (String × Json))
    (k k' : String) (v : Json) (h : k ≠ k') :
    strListFieldD (.obj (objInsert kvs k v)) k' =
      strListFieldD (.obj kvs) k' := by
  unfold strListFieldD
  rw [Json_get_objInsert_ne _ _ _ _ h]

theorem jsonListFieldD_objInsert_ne (kvs : List (String × Json))
    (k k' : String) (v : Json) (h : k ≠ k') :
    jsonListFieldD (.obj (objInsert kvs k v)) k' =
      jsonListFieldD (.obj kvs) k' := by
  unfold jsonListFieldD
  rw [Json_get_objInsert_ne _ _ _ _ h]

theorem configFieldD_objInsert_self (kvs cfg : List (String × Json)) :
    configFieldD (.obj (objInsert kvs "config" (.obj cfg))) = some cfg := by
  unfold configFieldD
  simp [Json.get, objLookup_objInsert_self]

/-- The typed parse reads the configuration mapping. -/
theorem parseManifest_config {j : Json} {m : Manifest}
    (h : parseManifest j = some m) : configFieldD j = some m.config := by
  cases j with
  | obj kvs =>
    cases hok : manifestShapeOk (Json.obj kvs) with
    | false => simp [parseManifest, hok] at h
    | true =>
      simp only [parseManifest, hok, if_true] at h
      have hc : (configFieldD (Json.obj kvs)).isSome = true := by
        simp only [manifestShapeOk, Bool.and_eq_true] at hok
        tauto
      obtain ⟨c, hcc⟩ := Option.isSome_iff_exists.mp hc
      injection h with h2
      subst h2
      simp [hcc]
  | null => simp [parseManifest] at h
  | bool b => simp [parseManifest] at h
  | num n => simp [parseManifest] at h
  | str s => simp [parseManifest] at h
  | arr xs => simp [parseManifest] at h

/-- Updating (only) the `config` field of a manifest that parses yields a
manifest that parses to the same record with the new configuration. -/
theorem parseManifest_set_config (kvs : List (String × Json)) (m : Manifest)
    (cfg : List (String × Json))
    (h : parseManifest (.obj kvs) = some m) :
    parseManifest (.obj (objInsert kvs "config" (.obj cfg))) =
      some { m with config := cfg } := by
  cases hok : manifestShapeOk (Json.obj kvs) with
  | false => simp [parseManifest, hok] at h
  | true =>
    simp only [parseManifest, hok, if_true] at h
    have hok' : manifestShapeOk
        (.obj (objInsert kvs "config" (.obj cfg))) = true := by
      simp only [manifestShapeOk, Bool.and_eq_true,
        optStrField_objInsert_ne _ _ _ _ (by decide : "config" ≠ "id"),
        optStrField_objInsert_ne _ _ _ _ (by decide : "config" ≠ "name"),
        optStrField_objInsert_ne _ _ _ _ (by decide : "config" ≠ "summary"),
        optStrField_objInsert_ne _ _ _ _ (by decide : "config" ≠ "version"),
        optStrField_objInsert_ne _ _ _ _
          (by decide : "config" ≠ "description"),
        optStrField_objInsert_ne _ _ _ _ (by decide : "config" ≠ "author"),
        optStrField_objInsert_ne _ _ _ _ (by decide : "config" ≠ "homepage"),
        optStrField_objInsert_ne _ _ _ _
          (by decide : "config" ≠ "installDir"),
        transportsField_objInsert_ne _ _ _
          (by decide : "config" ≠ "transports"),
        strListFieldD_objInsert_ne _ _ _ _
          (by decide : "config" ≠ "categories"),
        strListFieldD_objInsert_ne _ _ _ _
          (by decide : "config" ≠ "capabilities"),
        strListFieldD_objInsert_ne _ _ _ _
          (by decide : "config" ≠ "permissions"),
        jsonListFieldD_objInsert_ne _ _ _ _ (by decide : "config" ≠ "tools"),
        configFieldD_objInsert_self, Option.isSome_some] at hok ⊢
      tauto
    simp only [parseManifest, hok', if_true,
      optStrField_objInsert_ne _ _ _ _ (by decide : "config" ≠ "id"),
      optStrField_objInsert_ne _ _ _ _ (by decide : "config" ≠ "name"),
      optStrField_objInsert_ne _ _ _ _ (by decide : "config" ≠ "summary"),
      optStrField_objInsert_ne _ _ _ _ (by decide : "config" ≠ "version"),
      optStrField_objInsert_ne _ _ _ _
        (by decide : "config" ≠ "description"),
      optStrField_objInsert_ne _ _ _ _ (by decide : "config" ≠ "author"),
      optStrField_objInsert_ne _ _ _ _ (by decide : "config" ≠ "homepage"),
      optStrField_objInsert_ne _ _ _ _ (by decide : "config" ≠ "installDir"),
      transportsField_objInsert_ne _ _ _
        (by decide : "config" ≠ "transports"),
      strListFieldD_objInsert_ne _ _ _ _
        (by decide : "config" ≠ "categories"),
      strListFieldD_objInsert_ne _ _ _ _
        (by decide : "config" ≠ "capabilities"),
      strListFieldD_objInsert_ne _ _ _ _
        (by decide : "config" ≠ "permissions"),
      jsonListFieldD_objInsert_ne _ _ _ _ (by decide : "config" ≠ "tools"),
      configFieldD_objInsert_self]
    injection h with h2
    subst h2
    simp

/-! ### C2 — Config-Set's commit is a direct write, not the shared branch -/

/-- A world whose only server `s` is installed in system scope. -/
def c2World : World :=
  { userIndex := .absent,
    systemIndex := .file (.obj [("servers", .obj
      [("s", .obj [("location",
        .str "/usr/share/mcp/installed/s/manifest.json")])])]),
    files := fun p =>
      if p = "/usr/share/mcp/installed/s/manifest.json" then
        .file (.obj [("id", .str "s")])
      else .absent,
    userSources := none, systemSources := none }

/-- C2 counterexample: for a system-scope manifest while the process is not
elevated, `set_config_value` commits with a single direct write to the
manifest path — it stages no temp file and invokes no elevated copy — while
the shared index-write protocol prescribes, for system scope without
elevation, a temp-file write plus elevated copy and no direct write.  So
Config-Set's commit does not use the shared three-way branch. -/
theorem c2_counterexample :
    (set_config_value true c2World "s" "k" "v").wrotePath =
      some "/usr/share/mcp/installed/s/manifest.json" ∧
    (set_config_value true c2World "s" "k" "v").err = none ∧
    (set_config_value true c2World "s" "k" "v").tempWritten = false ∧
    (set_config_value true c2World "s" "k" "v").copyInvoked = false ∧
    (commitIndex ⟨false, true, true, some true⟩ c2World.systemIndex
      Scope.system (.obj [])).tempWritten = true ∧
    (commitIndex ⟨false, true, true, some true⟩ c2World.systemIndex
      Scope.system (.obj [])).copyInvoked = true ∧
    (commitIndex ⟨false, true, true, some true⟩ c2World.systemIndex
      Scope.system (.obj [])).directWrite = false :=
  ⟨rfl, rfl, rfl, rfl, rfl, rfl, rfl⟩

/-- The entries of a raw manifest's configuration object (empty when the
`config` key is absent or not an object). -/
def configEntries (kvs : List (String × Json)) : List (String × Json) :=
  match objLookup kvs "config" with
  | some (.obj cfg) => cfg
  | _ => []

/-- C2 amended: Config-Set loads the manifest as raw untyped JSON, ensures
a configuration object, upserts the one key to the string value, and
commits with a single direct write to the resolved manifest path regardless
of scope and privilege — never staging a temp file nor invoking an elevated
copy; on success the written JSON carries the upserted key in its config
object and preserves every other top-level key and every other config
entry. -/
theorem c2_config_set_direct_write (writeOk : Bool) (w : World)
    (id key value : String) :
    (set_config_value writeOk w id key value).tempWritten = false ∧
    (set_config_value writeOk w id key value).copyInvoked = false ∧
    (∀ p, (set_config_value writeOk w id key value).wrotePath = some p →
      get_manifest_path w id = some p) ∧
    ((set_config_value writeOk w id key value).err = none →
      writeOk = true ∧
      ∃ p kvsOld kvsNew cfgNew,
        get_manifest_path w id = some p ∧
        w.files p = .file (.obj kvsOld) ∧
        (set_config_value writeOk w id key value).world.files p =
          .file (.obj kvsNew) ∧
        objLookup kvsNew "config" = some (.obj cfgNew) ∧
        objLookup cfgNew key = some (.str value) ∧
        (∀ k, k ≠ "config" → objLookup kvsNew k = objLookup kvsOld k) ∧
        (∀ k, k ≠ key →
          objLookup cfgNew k = objLookup (configEntries kvsOld) k)) := by
  cases hp : get_manifest_path w id with
  | none =>
    refine ⟨by simp [set_config_value, hp], by simp [set_config_value, hp],
      ?_, ?_⟩
    · intro p h
      simp [set_config_value, hp] at h
    · intro h
      simp [set_config_value, hp] at h
  | some path =>
    cases hf : w.files path with
    | absent =>
      refine ⟨by simp [set_config_value, hp, hf],
        by simp [set_config_value, hp, hf], ?_, ?_⟩
      · intro p h
        simp [set_config_value, hp, hf] at h
      · intro h
        simp [set_config_value, hp, hf] at h
    | corrupt =>
      refine ⟨by simp [set_config_value, hp, hf],
        by simp [set_config_value, hp, hf], ?_, ?_⟩
      · intro p h
        simp [set_config_value, hp, hf] at h
      · intro h
        simp [set_config_value, hp, hf] at h
    | file j =>
      cases j with
      | obj kvs =>
        by_cases hno : (objLookup kvs "config").isNone
        · -- config absent: an empty config object is created first
          have hl : objLookup (objInsert kvs "config" (.obj []))
              "config" = some (.obj []) := objLookup_objInsert_self _ _ _
          cases hwo : writeOk with
          | false =>
            refine ⟨by simp [set_config_value, hp, hf, hno, hl],
              by simp [set_config_value, hp, hf, hno, hl], ?_, ?_⟩
            · intro p h
              simp [set_config_value, hp, hf, hno, hl] at h
              simp [h.symm, hp]
            · intro h
              simp [set_config_value, hp, hf, hno, hl] at h
          | true =>
            refine ⟨by simp [set_config_value, hp, hf, hno, hl],
              by simp [set_config_value, hp, hf, hno, hl], ?_, ?_⟩
            · intro p h
              simp [set_config_value, hp, hf, hno, hl] at h
              simp [h.symm, hp]
            · intro _
              refine ⟨rfl, path, kvs,
                objInsert (objInsert kvs "config" (.obj [])) "config"
                  (.obj (objInsert [] key (.str value))),
                objInsert [] key (.str value), rfl, hf, ?_, ?_, ?_, ?_, ?_⟩
              · simp [set_config_value, hp, hf, hno, hl, setFile]
              · exact objLookup_objInsert_self _ _ _
              · exact objLookup_objInsert_self _ _ _
              · intro k hk
                rw [objLookup_objInsert_ne _ _ _ _ (Ne.symm hk),
                  objLookup_objInsert_ne _ _ _ _ (Ne.symm hk)]
              · intro k hk
                rw [objLookup_objInsert_ne _ _ _ _ (Ne.symm hk)]
                have : objLookup kvs "config" = none :=
                  Option.isNone_iff_eq_none.mp hno
                simp [configEntries, this, objLookup]
        · -- config present
          cases hcv : objLookup kvs "config" with
          | none => simp [hcv] at hno
          | some cv =>
            cases cv with
            | obj cfg =>
              cases hwo : writeOk with
              | false =>
                refine ⟨by simp [set_config_value, hp, hf, hno, hcv],
                  by simp [set_config_value, hp, hf, hno, hcv], ?_, ?_⟩
                · intro p h
                  simp [set_config_value, hp, hf, hno, hcv] at h
                  simp [h.symm, hp]
                · intro h
                  simp [set_config_value, hp, hf, hno, hcv] at h
              | true =>
                refine ⟨by simp [set_config_value, hp, hf, hno, hcv],
                  by simp [set_config_value, hp, hf, hno, hcv], ?_, ?_⟩
                · intro p h
                  simp [set_config_value, hp, hf, hno, hcv] at h
                  simp [h.symm, hp]
                · intro _
                  refine ⟨rfl, path, kvs,
                    objInsert kvs "config"
                      (.obj (objInsert cfg key (.str value))),
                    objInsert cfg key (.str value), rfl, hf, ?_, ?_, ?_,
                    ?_, ?_⟩
                  · simp [set_config_value, hp, hf, hno, hcv, setFile]
                  · exact objLookup_objInsert_self _ _ _
                  · exact objLookup_objInsert_self _ _ _
                  · intro k hk
                    rw [objLookup_objInsert_ne _ _ _ _ (Ne.symm hk)]
                  · intro k hk
                    rw [objLookup_objInsert_ne _ _ _ _ (Ne.symm hk)]
                    simp [configEntries, hcv]
            | null =>
              refine ⟨by simp [set_config_value, hp, hf, hno, hcv],
                by simp [set_config_value, hp, hf, hno, hcv], ?_, ?_⟩
              · intro p h
                simp [set_config_value, hp, hf, hno, hcv] at h
              · intro h
                simp [set_config_value, hp, hf, hno, hcv] at h
            | bool b =>
              refine ⟨by simp [set_config_value, hp, hf, hno, hcv],
                by simp [set_config_value, hp, hf, hno, hcv], ?_, ?_⟩
              · intro p h
                simp [set_config_value, hp, hf, hno, hcv] at h
              · intro h
                simp [set_config_value, hp, hf, hno, hcv] at h
            | num n =>
              refine ⟨by simp [set_config_value, hp, hf, hno, hcv],
                by simp [set_config_value, hp, hf, hno, hcv], ?_, ?_⟩
              · intro p h
                simp [set_config_value, hp, hf, hno, hcv] at h
              · intro h
                simp [set_config_value, hp, hf, hno, hcv] at h
            | str s =>
              refine ⟨by simp [set_config_value, hp, hf, hno, hcv],
                by simp [set_config_value, hp, hf, hno, hcv], ?_, ?_⟩
              · intro p h
                simp [set_config_value, hp, hf, hno, hcv] at h
              · intro h
                simp [set_config_value, hp, hf, hno, hcv] at h
            | arr xs =>
              refine ⟨by simp [set_config_value, hp, hf, hno, hcv],
                by simp [set_config_value, hp, hf, hno, hcv], ?_, ?_⟩
              · intro p h
                simp [set_config_value, hp, hf, hno, hcv] at h
              · intro h
                simp [set_config_value, hp, hf, hno, hcv] at h
      | null =>
        refine ⟨by simp [set_config_value, hp, hf],
          by simp [set_config_value, hp, hf], ?_, ?_⟩
        · intro p h
          simp [set_config_value, hp, hf] at h
        · intro h
          simp [set_config_value, hp, hf] at h
      | bool b =>
        refine ⟨by simp [set_config_value, hp, hf],
          by simp [set_config_value, hp, hf], ?_, ?_⟩
        · intro p h
          simp [set_config_value, hp, hf] at h
        · intro h
          simp [set_config_value, hp, hf] at h
      | num n =>
        refine ⟨by simp [set_config_value, hp, hf],
          by simp [set_config_value, hp, hf], ?_, ?_⟩
        · intro p h
          simp [set_config_value, hp, hf] at h
        · intro h
          simp [set_config_value, hp, hf] at h
      | str s =>
        refine ⟨by simp [set_config_value, hp, hf],
          by simp [set_config_value, hp, hf], ?_, ?_⟩
        · intro p h
          simp [set_config_value, hp, hf] at h
        · intro h
          simp [set_config_value, hp, hf] at h
      | arr xs =>
        refine ⟨by simp [set_config_value, hp, hf],
          by simp [set_config_value, hp, hf], ?_, ?_⟩
        · intro p h
          simp [set_config_value, hp, hf] at h
        · intro h
          simp [set_config_value, hp, hf] at h

/-- Closed instantiation of the amended C2 theorem at the concrete
system-scope world. -/
theorem c2_config_set_direct_write_witness :
    (set_config_value true c2World "s" "k" "v").tempWritten = false ∧
    get_manifest_path c2World "s" =
      some "/usr/share/mcp/installed/s/manifest.json" := by
  constructor
  · exact (c2_config_set_direct_write true c2World "s" "k" "v").1
  · exact (c2_config_set_direct_write true c2World "s" "k" "v").2.2.1
      "/usr/share/mcp/installed/s/manifest.json" rfl

/-! ### C5 — Config-Set then Config-Get round-trips -/

theorem load_server_from_scope_setFile_hit (idx : FileState)
    (files : String → FileState) (id : String) (scope s0 : Scope)
    (path : String) (m : Manifest) (jNew : Json) (mNew : Manifest)
    (h : load_server_from_scope idx files id scope = some (m, s0, path))
    (hNew : parseManifest jNew = some mNew) :
    load_server_from_scope idx
      (fun q => if q = path then .file jNew else files q) id scope =
      some (mNew, s0, path) := by
  unfold load_server_from_scope at h ⊢
  cases hl : lsfsLoc idx id with
  | none => simp [hl] at h
  | some loc =>
    simp only [hl] at h ⊢
    cases hfl : files loc with
    | absent => simp [hfl] at h
    | corrupt => simp [hfl] at h
    | file mj =>
      rw [hfl] at h
      cases hpm : parseManifest mj with
      | none => simp [hpm] at h
      | some m2 =>
        simp only [hpm, Option.some.injEq, Prod.mk.injEq] at h
        obtain ⟨_, hs, hloc⟩ := h
        subst hloc
        subst hs
        simp [hNew]

theorem load_server_from_scope_setFile_miss (idx : FileState)
    (files : String → FileState) (id : String) (scope : Scope)
    (path : String) (jOld : Json) (mOld : Manifest) (jNew : Json)
    (h : load_server_from_scope idx files id scope = none)
    (hfl : files path = .file jOld)
    (hpm : parseManifest jOld = some mOld) :
    load_server_from_scope idx
      (fun q => if q = path then .file jNew else files q) id scope =
      none := by
  unfold load_server_from_scope at h ⊢
  cases hl : lsfsLoc idx id with
  | none => simp [hl]
  | some loc =>
    simp only [hl] at h ⊢
    by_cases hlp : loc = path
    · subst hlp
      rw [hfl] at h
      simp [hpm] at h
    · simp only [hlp, if_false]
      exact h

/-- After rewriting the resolved manifest file, the server still resolves
— in the same scope — to the manifest parsed from the new content. -/
theorem get_server_setFile (w : World) (id path : String) (jOld : Json)
    (mOld : Manifest) (jNew : Json) (mNew : Manifest)
    (hp : get_manifest_path w id = some path)
    (hfl : w.files path = .file jOld)
    (hOld : parseManifest jOld = some mOld)
    (hNew : parseManifest jNew = some mNew) :
    ∃ s, get_server (setFile w path jNew) id = some (mNew, s) := by
  unfold get_manifest_path at hp
  cases hu : load_server_from_scope w.userIndex w.files id .user with
  | some r =>
    obtain ⟨m, s0, p⟩ := r
    rw [hu] at hp
    dsimp only at hp
    have hpp : p = path := Option.some.inj hp
    subst hpp
    have hhit := load_server_from_scope_setFile_hit w.userIndex w.files id
      .user s0 p m jNew mNew hu hNew
    refine ⟨s0, ?_⟩
    unfold get_server setFile
    simp [hhit]
  | none =>
    rw [hu] at hp
    dsimp only at hp
    obtain ⟨r, hsys, hpath⟩ := Option.map_eq_some'.mp hp
    obtain ⟨m2, s2, p2⟩ := r
    dsimp only at hpath
    have hpp : p2 = path := hpath
    subst hpp
    have hmiss := load_server_from_scope_setFile_miss w.userIndex w.files id
      .user p2 jOld mOld jNew hu hfl hOld
    have hhit := load_server_from_scope_setFile_hit w.systemIndex w.files id
      .system s2 p2 m2 jNew mNew hsys hNew
    refine ⟨s2, ?_⟩
    unfold get_server setFile
    simp [hmiss, hhit]

/-- C5: for an installed server whose manifest parses, Config-Set of a key
to a string value succeeds, a following Config-Get of that key returns
exactly that string, and the written manifest JSON preserves every other
top-level field (including fields unknown to the typed record) and every
other entry of the configuration object. -/
theorem c5_config_set_get_roundtrip (w : World) (id key value path : String)
    (kvs : List (String × Json)) (m0 : Manifest)
    (hp : get_manifest_path w id = some path)
    (hf : w.files path = .file (.obj kvs))
    (hm : parseManifest (.obj kvs) = some m0) :
    (set_config_value true w id key value).err = none ∧
    config_get (set_config_value true w id key value).world id key =
      some (.str value) ∧
    (∀ k, k ≠ "config" → ∀ kvsNew,
      (set_config_value true w id key value).world.files path =
        .file (.obj kvsNew) →
      objLookup kvsNew k = objLookup kvs k) ∧
    (∀ k, k ≠ key → ∀ kvsNew cfgNew,
      (set_config_value true w id key value).world.files path =
        .file (.obj kvsNew) →
      objLookup kvsNew "config" = some (.obj cfgNew) →
      objLookup cfgNew k = objLookup (configEntries kvs) k) := by
  by_cases hno : (objLookup kvs "config").isNone
  · -- config absent in the raw manifest: an empty object is created
    have hcfg0 : objLookup kvs "config" = none :=
      Option.isNone_iff_eq_none.mp hno
    have hl : objLookup (objInsert kvs "config" (.obj []))
        "config" = some (.obj []) := objLookup_objInsert_self _ _ _
    have hrun : set_config_value true w id key value =
        ⟨setFile w path (.obj (objInsert (objInsert kvs "config" (.obj []))
            "config" (.obj (objInsert [] key (.str value))))),
          some path, false, false, none⟩ := by
      simp [set_config_value, hp, hf, hno, hl]
    have hparse1 : parseManifest (.obj (objInsert kvs "config" (.obj []))) =
        some { m0 with config := [] } :=
      parseManifest_set_config kvs m0 [] hm
    have hparse2 :=
      parseManifest_set_config _ _ (objInsert [] key (.str value)) hparse1
    obtain ⟨s, hgs⟩ := get_server_setFile w id path (.obj kvs) m0 _ _
      hp hf hm hparse2
    refine ⟨by rw [hrun], ?_, ?_, ?_⟩
    · rw [hrun]
      unfold config_get
      rw [hgs]
      simp [objLookup_objInsert_self]
    · intro k hk kvsNew hfile
      rw [hrun] at hfile
      simp [setFile] at hfile
      subst hfile
      rw [objLookup_objInsert_ne _ _ _ _ (Ne.symm hk),
        objLookup_objInsert_ne _ _ _ _ (Ne.symm hk)]
    · intro k hk kvsNew cfgNew hfile hcl
      rw [hrun] at hfile
      simp [setFile] at hfile
      subst hfile
      rw [objLookup_objInsert_self] at hcl
      simp only [Option.some.injEq, Json.obj.injEq] at hcl
      subst hcl
      rw [objLookup_objInsert_ne _ _ _ _ (Ne.symm hk)]
      simp [configEntries, hcfg0, objLookup]
  · -- config present: it must be an object, else the parse had failed
    have hc := parseManifest_config hm
    cases hcv : objLookup kvs "config" with
    | none => simp [hcv] at hno
    | some cv =>
      have hobj : cv = .obj m0.config := by
        simp only [configFieldD, Json.get] at hc
        rw [hcv] at hc
        cases cv <;> simp_all
      subst hobj
      have hrun : set_config_value true w id key value =
          ⟨setFile w path (.obj (objInsert kvs "config"
              (.obj (objInsert m0.config key (.str value))))),
            some path, false, false, none⟩ := by
        simp [set_config_value, hp, hf, hno, hcv]
      have hparse2 : parseManifest (.obj (objInsert kvs "config"
          (.obj (objInsert m0.config key (.str value))))) =
          some { m0 with config := objInsert m0.config key (.str value) } :=
        parseManifest_set_config kvs m0 _ hm
      obtain ⟨s, hgs⟩ := get_server_setFile w id path (.obj kvs) m0 _ _
        hp hf hm hparse2
      refine ⟨by rw [hrun], ?_, ?_, ?_⟩
      · rw [hrun]
        unfold config_get
        rw [hgs]
        simp [objLookup_objInsert_self]
      · intro k hk kvsNew hfile
        rw [hrun] at hfile
        simp [setFile] at hfile
        subst hfile
        rw [objLookup_objInsert_ne _ _ _ _ (Ne.symm hk)]
      · intro k hk kvsNew cfgNew hfile hcl
        rw [hrun] at hfile
        simp [setFile] at hfile
        subst hfile
        rw [objLookup_objInsert_self] at hcl
        simp only [Option.some.injEq, Json.obj.injEq] at hcl
        subst hcl
        rw [objLookup_objInsert_ne _ _ _ _ (Ne.symm hk)]
        simp [configEntries, hcv]

/-- A world with one user-scope server `s` whose manifest carries a field
unknown to the typed record. -/
def c5World : World :=
  { userIndex := .file (.obj [("servers", .obj
      [("s", .obj [("location", .str "/m")])])]),
    systemIndex := .absent,
    files := fun p =>
      if p = "/m" then
        .file (.obj [("id", .str "s"), ("custom", .str "keepme")])
      else .absent,
    userSources := none, systemSources := none }

/-- Closed instantiation of the C5 theorem at `c5World`. -/
theorem c5_config_set_get_roundtrip_witness :
    config_get (set_config_value true c5World "s" "k" "v").world "s" "k" =
      some (.str "v") :=
  (c5_config_set_get_roundtrip c5World "s" "k" "v" "/m"
    [("id", .str "s"), ("custom", .str "keepme")]
    { id := some "s", name := none, summary := none, version := none,
      description := none, author := none, homepage := none,
      transports := none, config := [], install_dir := none,
      categories := [], capabilities := [], permissions := [], tools := [] }
    rfl rfl rfl).2.1

end Dmcp
